import Mathlib

/-!
Verification of the `verifyreceipt` backend verification-orchestration core.

This file is a shallow embedding, in Lean 4, of the Python modules under
`backend/app/`: the normalizer (`normalize.py`), the orchestrator decision
logic (`main.py`), the cache key, the resilience primitives
(`resilience.py`), the fixed-window rate limiter (`rate_limit.py`) and the
CBE amount parser (`cbe_receipt.py`).  Python dictionaries of JSON data are
modelled by the inductive type `Value`; Python `float` arithmetic is
modelled by exact rationals (every numeric literal appearing in the claims
is exactly representable); time values (`time.time()`, `time.monotonic()`)
are passed explicitly as rationals.  Randomness (`random.random()`) is
passed explicitly as an abstract jitter stream.
-/

namespace VerifyReceipt

/-- JSON-like values as produced by `resp.json()` and handled by the
Python code (dicts, lists, strings, booleans, numbers, `None`).
Python `int` and `float` are both modelled as exact rationals. -/
inductive Value where
  | null : Value
  | bool : Bool → Value
  | num : ℚ → Value
  | str : String → Value
  | obj : List (String × Value) → Value
  | arr : List Value → Value

/-- A raw field map (`dict[str, Any]`): an association list with the
dictionary's insertion order; keys are unique in every map the code
builds. -/
abbrev RawMap := List (String × Value)

/-- The `dict.get(key)`: first binding of `key`, `None` (here `none`) when
absent. -/
def rawGet (raw : RawMap) (k : String) : Option Value :=
  match raw.find? (fun p => p.1 == k) with
  | some p => some p.2
  | none => none

/-- Python truthiness of a JSON-like value (`bool(v)`). -/
def truthy : Value → Bool
  | .null => false
  | .bool b => b
  | .num q => q != 0
  | .str s => s != ""
  | .obj l => !l.isEmpty
  | .arr l => !l.isEmpty

/-- Python `a or b` on two optional values (absent key ⇒ `None` ⇒ falsy). -/
def pyOr2 (a b : Option Value) : Option Value :=
  match a with
  | some v => if truthy v then some v else b
  | none => b

/-- The `pat` occurs as a contiguous sublist of `hay` (Python `pat in hay` on
strings, after `.toList`). -/
def containsSub (hay pat : List Char) : Bool :=
  pat.isPrefixOf hay ||
    (match hay with
     | [] => false
     | _ :: t => containsSub t pat)

/-- Python `pat in hay` for strings. -/
def strContains (hay pat : String) : Bool :=
  containsSub hay.toList pat.toList

/-- ASCII whitespace (`\s`, `str.strip()`; the receipt and message text is
ASCII, so the Unicode whitespace Python also accepts is not modelled). -/
def isSpaceCh (c : Char) : Bool :=
  c == ' ' || c == '\t' || c == '\n' || c == '\r' || c == '\x0b' || c == '\x0c'

/-- Python `str.lower()` at its ASCII subset, as a list-of-characters map
(the library `String.toLower` is byte-position based and is opaque to
kernel evaluation, so the claims' concrete instances could not be checked
with it). -/
def pyLower (s : String) : String :=
  String.mk (s.data.map Char.toLower)

/-- Python `str.strip()` at its ASCII subset. -/
def pyStrip (s : String) : String :=
  String.mk (((s.data.dropWhile isSpaceCh).reverse.dropWhile isSpaceCh).reverse)

/-! ## `normalize.py` -/

/-- Stage (a) of `normalize_status` (normalize.py lines 16–25): scan the
keys `status`, `result`, `state` in order; a string value is trimmed,
lowered and looked up in the fixed vocabulary; an unrecognized string (or
a non-string value) falls through to the next key. -/
def statusStage (raw : RawMap) : List String → Option String
  | [] => none
  | k :: ks =>
    match rawGet raw k with
    | some (.str s) =>
      let v := pyLower (pyStrip s)
      if v ∈ ["success", "successful", "verified", "paid", "ok"] then some "SUCCESS"
      else if v ∈ ["failed", "invalid", "not_found", "not found", "unverified", "error"] then some "FAILED"
      else if v ∈ ["pending", "processing", "unknown"] then some "PENDING"
      else statusStage raw ks
    | _ => statusStage raw ks

/-- Stage (b) of `normalize_status` (normalize.py lines 27–30): scan the
boolean flag keys in order. -/
def boolStage (raw : RawMap) : List String → Option String
  | [] => none
  | k :: ks =>
    match rawGet raw k with
    | some (.bool b) => some (if b then "SUCCESS" else "FAILED")
    | _ => boolStage raw ks

/-- The `raw.get("message") or raw.get("detail")` (Python truthiness). -/
def msgValue (raw : RawMap) : Option Value :=
  pyOr2 (rawGet raw "message") (rawGet raw "detail")

/-- Stage (c) of `normalize_status` (normalize.py lines 32–40): keyword
scan of the message text, pending keywords first, then failure, then
success. -/
def messageStage (raw : RawMap) : Option String :=
  match msgValue raw with
  | some (.str s) =>
    let m := pyLower s
    if strContains m "pending" || strContains m "processing" || strContains m "try again" then
      some "PENDING"
    else if strContains m "invalid" || strContains m "not found" || strContains m "failed" then
      some "FAILED"
    else if strContains m "success" || strContains m "verified" then
      some "SUCCESS"
    else none
  | _ => none

/-- The `normalize_status` (normalize.py lines 15–42). -/
def normalize_status (raw : RawMap) : String :=
  match statusStage raw ["status", "result", "state"] with
  | some s => s
  | none =>
    match boolStage raw ["success", "verified", "isVerified", "is_verified"] with
    | some s => s
    | none =>
      match messageStage raw with
      | some s => s
      | none => "PENDING"

/-- Modelled from the spec's wording of the status-inference order
(§4.7 / claim C5): rule (a), otherwise rule (b), otherwise rule (c),
otherwise the default `PENDING`.  Stated as an `Option.orElse` chain to
compare against the source-derived `normalize_status`. -/
def normalize_status_spec (raw : RawMap) : String :=
  (((statusStage raw ["status", "result", "state"]).orElse
      (fun _ => boolStage raw ["success", "verified", "isVerified", "is_verified"])).orElse
      (fun _ => messageStage raw)).getD "PENDING"

/-- Python `str(float_or_int)` for a JSON number modelled as an exact
rational: integers print without a decimal point; non-integral values are
printed as `num/den` (an approximation of the float repr, unused by every
claim in this development). -/
def numRepr (q : ℚ) : String :=
  if q.den = 1 then toString q.num
  else toString q.num ++ "/" ++ toString q.den

/-- Python `str(value)` for the container cases of `_as_str` (an
approximation of Python `repr`; unused by every claim). -/
def pyStrFallback : Value → String
  | .null => "None"
  | .bool b => if b then "True" else "False"
  | .num q => numRepr q
  | .str s => s
  | .obj _ => "<dict>"
  | .arr _ => "<list>"

/-- The `_as_str` (normalize.py lines 7–12): `None → None`, a string is kept,
anything else is `str(value)`. -/
def as_str : Option Value → Option String
  | none => none
  | some .null => none
  | some (.str s) => some s
  | some v => some (pyStrFallback v)

/-- Digits of a decimal literal to a natural number. -/
def digitsToNat (cs : List Char) : Nat :=
  cs.foldl (fun a c => a * 10 + (c.toNat - '0'.toNat)) 0

def isDigitCh (c : Char) : Bool := '0' ≤ c && c ≤ '9'

/-- Exact value of a matched numeric token of shape
`[0-9][0-9,]*(\.[0-9]{1,2})?` after `.replace(",", "")` (Python
`float(...)` never fails on this shape).  The decimal
`intPart.fracPart` is built as the single fraction
`digits(intPart ++ fracPart) / 10^len(fracPart)`, its exact value. -/
def ratOfNum (cs : List Char) : Option ℚ :=
  let cs := cs.filter (fun c => c != ',')
  let intPart := cs.takeWhile (fun c => c != '.')
  let rest := cs.dropWhile (fun c => c != '.')
  let frac := rest.drop 1
  if intPart ≠ [] && intPart.all isDigitCh && frac.all isDigitCh then
    some (mkRat (digitsToNat (intPart ++ frac)) (10 ^ frac.length))
  else none

/-- The regex group `([0-9][0-9,]*(?:\.[0-9]{1,2})?)` matched greedily at
the head of the character list, returning the matched token and the rest.
As the only context in which this group occurs is directly before
`\s*ETB\b` (or end of pattern), the shorter backtracking candidates are
always followed by a digit, a comma or a dot and can never complete the
surrounding pattern, so the greedy parse is the only viable candidate. -/
def numAt : List Char → Option (List Char × List Char)
  | [] => none
  | c :: rest =>
    if isDigitCh c then
      let run := rest.takeWhile (fun x => isDigitCh x || x == ',')
      let after := rest.dropWhile (fun x => isDigitCh x || x == ',')
      match after with
      | '.' :: d1 :: d2 :: tail =>
        if isDigitCh d1 && isDigitCh d2 then some (c :: run ++ ['.', d1, d2], tail)
        else if isDigitCh d1 then some (c :: run ++ ['.', d1], d2 :: tail)
        else some (c :: run, after)
      | ['.', d1] =>
        if isDigitCh d1 then some (c :: run ++ ['.', d1], []) else some (c :: run, after)
      | _ => some (c :: run, after)
    else none

/-- Leftmost match of the number group anywhere in the text
(`re.search(r"([0-9][0-9,]*(?:\.[0-9]{1,2})?)", amount)` in
`normalize_fields`). -/
def firstNumToken : List Char → Option (List Char)
  | [] => none
  | c :: rest =>
    match numAt (c :: rest) with
    | some (num, _) => some num
    | none => firstNumToken rest

/-- Python `float(s)` on an arbitrary string: an optional sign, digits
with an optional single dot.  Exponents and special floats are not
modelled (they never occur in the data the claims touch); any other shape
raises `ValueError`, here `none`. -/
def pyFloatOfString (s : String) : Option ℚ :=
  let cs := (pyStrip s).toList
  let (sign, cs) : ℚ × List Char :=
    match cs with
    | '-' :: t => (-1, t)
    | '+' :: t => (1, t)
    | _ => (1, cs)
  let intPart := cs.takeWhile (fun c => c != '.')
  let rest := cs.dropWhile (fun c => c != '.')
  let frac := rest.drop 1
  if (intPart ≠ [] || frac ≠ []) && intPart.all isDigitCh && frac.all isDigitCh then
    some (sign * ((digitsToNat intPart : ℚ) + (digitsToNat frac : ℚ) / (10 : ℚ) ^ frac.length))
  else none

/-- Python `float(value)`: numbers are themselves, booleans become 1/0,
strings are parsed, everything else raises (`none`). -/
def pyFloat : Value → Option ℚ
  | .num q => some q
  | .bool b => some (if b then 1 else 0)
  | .str s => pyFloatOfString s
  | _ => none

/-- The amount computation of `normalize_fields` (normalize.py lines
50–61): `float(amount)` when that succeeds, otherwise — only for string
amounts — the first numeric run extracted by regex. -/
def amountOf (av : Option Value) : Option ℚ :=
  match av with
  | none => none
  | some .null => none
  | some v =>
    match pyFloat v with
    | some q => some q
    | none =>
      match v with
      | .str s =>
        match firstNumToken s.toList with
        | some num => ratOfNum num
        | none => none
      | _ => none

/-- The `normalize_fields` (normalize.py lines 45–79): reads from the nested
`data` object when present, else the top level; returns
`(amount, payer, date, reference)`. -/
def normalize_fields (raw : RawMap) : Option ℚ × Option String × Option String × Option String :=
  let src : RawMap :=
    match rawGet raw "data" with
    | some (.obj d) => d
    | _ => raw
  let amountVal := pyOr2 (rawGet src "amount") (pyOr2 (rawGet src "total") (rawGet src "totalAmount"))
  let amount := amountOf amountVal
  let payer := as_str (pyOr2 (rawGet src "payer") (pyOr2 (rawGet src "payerName")
      (pyOr2 (rawGet src "from") (pyOr2 (rawGet src "sender") (rawGet src "debitedFrom")))))
  let date := as_str (pyOr2 (rawGet src "date") (pyOr2 (rawGet src "time")
      (pyOr2 (rawGet src "timestamp") (rawGet src "paymentDate"))))
  let reference := as_str (pyOr2 (rawGet src "reference") (pyOr2 (rawGet src "ref")
      (pyOr2 (rawGet src "transactionId") (pyOr2 (rawGet src "transactionID") (rawGet src "txId")))))
  (amount, payer, date, reference)

/-! ## `main.py` helpers: automation-failure and not-found heuristics -/

/-- The string needles of `_contains_puppeteer_error` (main.py lines
38–47), checked against the lowered string. -/
def pupStringHit (s : String) : Bool :=
  let v := pyLower s
  strContains v "puppeteer" || strContains v "could not find chrome" ||
    strContains v "chrome (ver." || strContains v "browsers install" ||
    strContains v "pptr.dev" || strContains v "cache path"

mutual

/-- The `_contains_puppeteer_error` (main.py lines 33–55): depth-bounded
recursive scan over the value; dictionary keys (always strings) are
checked with the same string test at depth+1. -/
def containsPuppeteerError (v : Value) (depth : Nat) : Bool :=
  if depth > 4 then false
  else
    match v with
    | .null => false
    | .str s => pupStringHit s
    | .obj fields => cpeFields fields depth
    | .arr elems => cpeElems elems depth
    | _ => false

def cpeFields (l : List (String × Value)) (depth : Nat) : Bool :=
  match l with
  | [] => false
  | (k, v) :: rest =>
    (if depth + 1 > 4 then false else pupStringHit k) ||
      containsPuppeteerError v (depth + 1) || cpeFields rest depth

def cpeElems (l : List Value) (depth : Nat) : Bool :=
  match l with
  | [] => false
  | v :: rest => containsPuppeteerError v (depth + 1) || cpeElems rest depth

end

def hexDigit (n : Nat) : Char :=
  if n < 10 then Char.ofNat ('0'.toNat + n) else Char.ofNat ('a'.toNat + (n - 10))

def uEscape4 (n : Nat) : String :=
  "\\u" ++ String.mk [hexDigit (n / 4096 % 16), hexDigit (n / 256 % 16),
    hexDigit (n / 16 % 16), hexDigit (n % 16)]

/-- The `json.dumps` escaping of one character (`ensure_ascii=True`: anything
outside the printable ASCII range 0x20–0x7e is escaped). -/
def jsonEscapeChar (c : Char) : String :=
  if c == '"' then "\\\""
  else if c == '\\' then "\\\\"
  else if c == '\n' then "\\n"
  else if c == '\r' then "\\r"
  else if c == '\t' then "\\t"
  else if c.toNat == 8 then "\\b"
  else if c.toNat == 12 then "\\f"
  else if c.toNat < 32 then uEscape4 c.toNat
  else if c.toNat < 127 then String.singleton c
  else if c.toNat < 65536 then uEscape4 c.toNat
  else uEscape4 (55296 + (c.toNat - 65536) / 1024) ++ uEscape4 (56320 + (c.toNat - 65536) % 1024)

def jsonEscape (cs : List Char) : String :=
  cs.foldl (fun acc c => acc ++ jsonEscapeChar c) ""

/-- The `json.dumps` of a number: integral values print as Python ints; the
float repr of non-integral values is approximated (it contains no
alphabetic characters, so the substring tests below are unaffected). -/
def numJson (q : ℚ) : String :=
  if q.den = 1 then toString q.num
  else toString q.num ++ "/" ++ toString q.den

mutual

/-- The `json.dumps(value)` with default separators and `ensure_ascii=True`
(dictionary order is insertion order).  Every `Value` is serializable, so
the `except` fallback to `str(raw)` in `_looks_like_automation_error` is
unreachable in this model. -/
def jsonDumps : Value → String
  | .null => "null"
  | .bool b => if b then "true" else "false"
  | .num q => numJson q
  | .str s => "\"" ++ jsonEscape s.toList ++ "\""
  | .obj fields => "\x7b" ++ jsonDumpsFields fields ++ "\x7d"
  | .arr elems => "[" ++ jsonDumpsElems elems ++ "]"

def jsonDumpsFields : List (String × Value) → String
  | [] => ""
  | [(k, v)] => "\"" ++ jsonEscape k.toList ++ "\": " ++ jsonDumps v
  | (k, v) :: rest =>
    "\"" ++ jsonEscape k.toList ++ "\": " ++ jsonDumps v ++ ", " ++ jsonDumpsFields rest

def jsonDumpsElems : List Value → String
  | [] => ""
  | [v] => jsonDumps v
  | v :: rest => jsonDumps v ++ ", " ++ jsonDumpsElems rest

end

/-- The `_looks_like_automation_error` (main.py lines 58–71): serialize the
raw value, lower it, and look for the needles. -/
def looksLikeAutomationError (raw : Value) : Bool :=
  let text := pyLower (jsonDumps raw)
  strContains text "puppeteer" || strContains text "could not find chrome" ||
    strContains text "chromium" || strContains text "browser install" ||
    strContains text "pptr.dev"

/-- The `"not found"` test on a lowered message string (the second
disjunct `"receipt not found" in ...` of the source is kept although it is
subsumed by the first). -/
def nfHit (s : String) : Bool :=
  strContains (pyLower s) "not found" || strContains (pyLower s) "receipt not found"

def nfKeyHit (data : RawMap) (k : String) : Bool :=
  match rawGet data k with
  | some (.str s) => nfHit s
  | _ => false

/-- The `_looks_like_not_found` (main.py lines 74–90). -/
def looksLikeNotFound : Value → Bool
  | .null => false
  | .str s => nfHit s
  | .obj fields =>
    (match pyOr2 (rawGet fields "message") (rawGet fields "detail") with
     | some (.str s) => nfHit s
     | _ => false) ||
    (match rawGet fields "data" with
     | some (.obj data) =>
       nfKeyHit data "message" || nfKeyHit data "detail" ||
         nfKeyHit data "error" || nfKeyHit data "reason"
     | _ => false)
  | _ => false

/-! ## `main.py`: orchestrator fallback decision and result selection -/

/-- The exceptions `api_verify_reference` catches around the upstream call
(main.py line 236): timeout, connection error, HTTP error with status and
parsed body, and `ValueError`. -/
inductive UpstreamExc where
  | timeout : UpstreamExc
  | connError : UpstreamExc
  | upstreamError (status_code : Int) (body : Value) : UpstreamExc
  | valueError (msg : String) : UpstreamExc

/-- The automation-failure signature used at main.py line 245: either
heuristic fires on the upstream raw map. -/
def automationSig (raw : RawMap) : Bool :=
  containsPuppeteerError (.obj raw) 0 || looksLikeAutomationError (.obj raw)

/-- The fallback decision of `api_verify_reference` (main.py lines
239–256).  In the source exactly one of `upstream_raw` / `upstream_error`
is set after the `try` block; both are taken as parameters here so the
dead status-404 re-check of lines 254–256 can be embedded as written. -/
def should_fallback (upstream_raw : Option RawMap) (upstream_error : Option UpstreamExc) : Bool :=
  let sf0 : Bool :=
    match upstream_raw with
    | none => true
    | some raw =>
      if automationSig raw then true
      else decide (normalize_status raw = "FAILED") && looksLikeNotFound (.obj raw)
  if !sf0 then
    match upstream_error with
    | some (.upstreamError code body) =>
      if code == 404 || looksLikeNotFound body then true else sf0
    | _ => sf0
  else sf0

/-- Which of the two raw results the orchestrator selected; the
constructor records the provenance that the source tracks through the
`raw is local_raw` / `raw is upstream_raw` identity checks (the two
dictionaries are distinct objects). -/
inductive RawChoice where
  | fromLocal (r : RawMap) : RawChoice
  | fromUpstream (r : RawMap) : RawChoice

/-- Result selection (main.py lines 262–269): a local result normalizing
to SUCCESS first, else an upstream result, else any local result, else
nothing. -/
def choose_raw (upstream_raw local_raw : Option RawMap) : Option RawChoice :=
  match local_raw with
  | some lr =>
    if normalize_status lr = "SUCCESS" then some (.fromLocal lr)
    else
      match upstream_raw with
      | some ur => some (.fromUpstream ur)
      | none => some (.fromLocal lr)
  | none =>
    match upstream_raw with
    | some ur => some (.fromUpstream ur)
    | none => none

/-- The `source` field computation (main.py lines 271–276). -/
def source_of : Option RawChoice → Option String
  | some (.fromLocal _) => some "local"
  | some (.fromUpstream _) => some "upstream"
  | none => none

/-! ## `main.py`: the reference-request cache key -/

/-- The five providers of `schemas.Provider`. -/
inductive Provider where
  | telebirr : Provider
  | cbe : Provider
  | dashen : Provider
  | abyssinia : Provider
  | cbebirr : Provider
deriving DecidableEq

/-- The `Provider.value` (the enum's string value). -/
def Provider.value : Provider → String
  | .telebirr => "telebirr"
  | .cbe => "cbe"
  | .dashen => "dashen"
  | .abyssinia => "abyssinia"
  | .cbebirr => "cbebirr"

/-- The `schemas.VerifyReferenceRequest`: provider, reference (min length 3,
otherwise unconstrained), optional suffix and phone. -/
structure VerifyReferenceRequest where
  provider : Provider
  reference : String
  suffix : Option String
  phone : Option String
deriving DecidableEq

/-- The cache key of `api_verify_reference` (main.py line 192):
`f"ref:{provider}:{reference}:{suffix or ''}:{phone or ''}"`; a `None`
or empty optional contributes the empty segment. -/
def cache_key (r : VerifyReferenceRequest) : String :=
  "ref:" ++ r.provider.value ++ ":" ++ r.reference ++ ":" ++
    (r.suffix.getD "") ++ ":" ++ (r.phone.getD "")

/-! ## `resilience.py` -/

/-- The `CircuitBreaker` state (resilience.py lines 24–39).  `time.monotonic()`
readings are passed explicitly as rationals. -/
structure CircuitBreaker where
  name : String
  enabled : Bool
  failure_threshold : Nat
  reset_seconds : Nat
  consecutive_failures : Nat
  open_until : ℚ
deriving DecidableEq

/-- The constructor (resilience.py lines 25–39): threshold and reset are
clamped with `max(1, int(...))`; the counter starts at 0 and the circuit
starts closed. -/
def mkCircuitBreaker (name : String) (enabled : Bool) (failure_threshold reset_seconds : Int) :
    CircuitBreaker :=
  { name := name
    enabled := enabled
    failure_threshold := (max 1 failure_threshold).toNat
    reset_seconds := (max 1 reset_seconds).toNat
    consecutive_failures := 0
    open_until := 0 }

/-- The `before_call` (resilience.py lines 41–46): `true` means the distinct
`CircuitOpen` error is raised (and the dependency is not invoked). -/
def before_call (st : CircuitBreaker) (now : ℚ) : Bool :=
  st.enabled && decide (now < st.open_until)

/-- The `record_success` (resilience.py lines 48–50). -/
def record_success (st : CircuitBreaker) : CircuitBreaker :=
  { st with consecutive_failures := 0, open_until := 0 }

/-- The `record_failure` (resilience.py lines 52–57). -/
def record_failure (st : CircuitBreaker) (now : ℚ) : CircuitBreaker :=
  if !st.enabled then st
  else
    let f := st.consecutive_failures + 1
    { st with
      consecutive_failures := f
      open_until := if st.failure_threshold ≤ f then now + st.reset_seconds else st.open_until }

/-- A sequence of `record_failure` calls at the given monotonic times. -/
def applyFailures (ts : List ℚ) (st : CircuitBreaker) : CircuitBreaker :=
  ts.foldl (fun s t => record_failure s t) st

/-- The `RetryConfig` (resilience.py lines 17–21). -/
structure RetryConfig where
  attempts : Int
  base_delay_ms : Int
  max_delay_ms : Int
deriving DecidableEq

/-- The observable outcome of one `retry_async` run: the returned value or
re-raised exception, the sleeps actually performed (attempt index paired
with the slept duration in seconds, in order), and how many times `fn` was
invoked. -/
structure RetryResult (E A : Type) where
  result : Except E A
  sleeps : List (Nat × ℚ)
  calls : Nat

/-- The loop of `retry_async` (resilience.py lines 70–86).  `outcome n` is
what the n-th invocation of `fn` does (1-indexed); `jitter n` is the
`random.random()` draw after attempt `n`.  `fuel` is `attempts` at the top
call; the loop body checks `attempt >= attempts` before recursing, so the
`fuel = 0` branch (the source's unreachable final `raise`) is never taken
when `attempts ≤ attempt + fuel`. -/
def retryAux {E A : Type} (attempts : Nat) (retryIf : E → Bool) (outcome : Nat → Except E A)
    (jitter : Nat → ℚ) (base maxDelay : ℚ) (attempt : Nat) : Nat → RetryResult E A
  | 0 => ⟨outcome attempt, [], 1⟩
  | fuel + 1 =>
    match outcome attempt with
    | .ok a => ⟨.ok a, [], 1⟩
    | .error e =>
      if attempts ≤ attempt || !retryIf e then ⟨.error e, [], 1⟩
      else
        let delay := min maxDelay (base * 2 ^ (attempt - 1)) * jitter attempt
        let rest := retryAux attempts retryIf outcome jitter base maxDelay (attempt + 1) fuel
        ⟨rest.result, (if 0 < delay then [(attempt, delay)] else []) ++ rest.sleeps, rest.calls + 1⟩

/-- The `retry_async` (resilience.py lines 60–86): attempts, base and max
delay are normalized exactly as in the source (`max(1, int(attempts))`,
`max(0, ...) / 1000.0`). -/
def retry_async {E A : Type} (config : RetryConfig) (retryIf : E → Bool)
    (outcome : Nat → Except E A) (jitter : Nat → ℚ) : RetryResult E A :=
  let attempts := (max 1 config.attempts).toNat
  let base := ((max 0 config.base_delay_ms : Int) : ℚ) / 1000
  let maxDelay := ((max 0 config.max_delay_ms : Int) : ℚ) / 1000
  retryAux attempts retryIf outcome jitter base maxDelay 1 attempts

/-! ## `rate_limit.py` -/

/-- The `RateLimitDecision` (rate_limit.py lines 7–12). -/
structure RateLimitDecision where
  allowed : Bool
  limit : Nat
  remaining : Int
  reset_epoch_seconds : Int
deriving DecidableEq

/-- The `FixedWindowRateLimiter` state (rate_limit.py lines 15–19). -/
structure FixedWindowRateLimiter where
  limit : Nat
  window_seconds : Int
  buckets : List (String × Nat)
deriving DecidableEq

/-- The constructor (rate_limit.py lines 16–19): `max(1, int(limit))`,
empty bucket dictionary. -/
def mkRateLimiter (limit window_seconds : Int) : FixedWindowRateLimiter :=
  ⟨(max 1 limit).toNat, window_seconds, []⟩

/-- The `self._buckets.get(key, 0)`. -/
def bucketGet (l : List (String × Nat)) (k : String) : Nat :=
  match l.find? (fun p => p.1 == k) with
  | some p => p.2
  | none => 0

/-- The `self._buckets[key] = count`: a Python dict assignment keeps an
existing key in place and appends a new key. -/
def bucketSet : List (String × Nat) → String → Nat → List (String × Nat)
  | [], k, v => [(k, v)]
  | (k', v') :: rest, k, v =>
    if k' == k then (k, v) :: rest else (k', v') :: bucketSet rest k v

/-- Python `str.endswith`. -/
def strEndsWith (s pat : String) : Bool :=
  pat.toList.isSuffixOf s.toList

/-- The `FixedWindowRateLimiter.hit` (rate_limit.py lines 21–47).
`time.time()` is passed explicitly; `int(now // window_seconds)` is the
floor of the exact quotient. -/
def hit (st : FixedWindowRateLimiter) (identity : String) (now : ℚ) :
    RateLimitDecision × FixedWindowRateLimiter :=
  let window : Int := ⌊now / (st.window_seconds : ℚ)⌋
  let reset : Int := (window + 1) * st.window_seconds
  let key := identity ++ ":" ++ toString window
  let count := bucketGet st.buckets key + 1
  let buckets1 := bucketSet st.buckets key count
  let buckets2 :=
    if buckets1.length > 10000 then
      buckets1.filter (fun p =>
        strEndsWith p.1 (":" ++ toString window) || strEndsWith p.1 (":" ++ toString (window - 1)))
    else buckets1
  let remaining : Int := max 0 ((st.limit : Int) - (count : Int))
  (⟨decide (count ≤ st.limit), st.limit, remaining, reset⟩, { st with buckets := buckets2 })

/-- The `n` successive `hit` calls for one identity, the `i`-th at time
`tau i`. -/
def iterHits (st : FixedWindowRateLimiter) (identity : String) (tau : Nat → ℚ) :
    Nat → FixedWindowRateLimiter
  | 0 => st
  | n + 1 => (hit (iterHits st identity tau n) identity (tau (n + 1))).2

/-! ## `cbe_receipt.py`: amount extraction

The two preferred regexes and the bare fallback of `_parse_amount`
(cbe_receipt.py lines 30–53) are embedded as character-list matchers over
the lowered text (`re.IGNORECASE`; the captured groups consist of digits,
commas and dots only, so lowering does not change them).  `\s` and `\w`
are modelled at their ASCII subsets (receipt text is ASCII). -/

def isWordCh (c : Char) : Bool :=
  c.isAlphanum || c == '_'

/-- The `\s*ETB\b` on the lowered text: skip whitespace, require `etb`, then a
word boundary. -/
def etbAfter (cs : List Char) : Option (List Char) :=
  match cs.dropWhile isSpaceCh with
  | 'e' :: 't' :: 'b' :: rest =>
    match rest with
    | [] => some []
    | c :: _ => if isWordCh c then none else some rest
  | _ => none

/-- A literal (already-lowered) token at the head. -/
def litAt (lit : List Char) (cs : List Char) : Option (List Char) :=
  if lit.isPrefixOf cs then some (cs.drop lit.length) else none

/-- The `\s+` at the head (greedy; the following token never matches
whitespace, so maximal munch is exact). -/
def spaces1 (cs : List Char) : Option (List Char) :=
  match cs with
  | c :: rest => if isSpaceCh c then some (rest.dropWhile isSpaceCh) else none
  | [] => none

/-- A whole preferred pattern at the head: the literal words separated by
`\s+`, then the number group, then `\s*ETB\b`; returns the captured
group. -/
def preferredAt (words : List String) (cs : List Char) : Option (List Char) := do
  let rest ← wordsSeq words cs
  let (num, rest2) ← numAt rest
  let _ ← etbAfter rest2
  pure num
where
  wordsSeq : List String → List Char → Option (List Char)
    | [], cs => some cs
    | w :: ws, cs => do
      let r ← litAt w.toList cs
      let r2 ← spaces1 r
      wordsSeq ws r2

/-- The `re.search`: leftmost position at which the head matcher succeeds. -/
def searchPat (pm : List Char → Option (List Char)) (cs : List Char) : Option (List Char) :=
  match pm cs with
  | some g => some g
  | none =>
    match cs with
    | [] => none
    | _ :: rest => searchPat pm rest

/-- The first preferred pattern (cbe_receipt.py line 33):
`Transferred\s+Amount\s+([0-9][0-9,]*(?:\.[0-9]{1,2})?)\s*ETB\b`. -/
def preferred1 (cs : List Char) : Option (List Char) :=
  preferredAt ["transferred", "amount"] cs

/-- The second preferred pattern (cbe_receipt.py line 34):
`Total\s+amount\s+debited\s+from\s+customers\s+account\s+(...)\s*ETB\b`. -/
def preferred2 (cs : List Char) : Option (List Char) :=
  preferredAt ["total", "amount", "debited", "from", "customers", "account"] cs

/-- The preferred-pattern loop (cbe_receipt.py lines 36–43): first match
of the first pattern, else of the second. -/
def searchPreferred (cs : List Char) : Option (List Char) :=
  match searchPat preferred1 cs with
  | some g => some g
  | none => searchPat preferred2 cs

/-- A bare `([0-9][0-9,]*(?:\.[0-9]{1,2})?)\s*ETB\b` match at the head,
returning the group and the rest of the text after the whole match. -/
def bareMatchAt (cs : List Char) : Option (List Char × List Char) :=
  match numAt cs with
  | some (num, rest) =>
    match etbAfter rest with
    | some rest2 => some (num, rest2)
    | none => none
  | none => none

/-- The `re.findall` of the bare pattern: non-overlapping leftmost matches,
scanning left to right.  Every match consumes at least one character, so
`cs.length` fuel suffices. -/
def bareMatchesAux (fuel : Nat) (cs : List Char) : List (List Char) :=
  match fuel with
  | 0 => []
  | fuel + 1 =>
    match cs with
    | [] => []
    | c :: rest =>
      match bareMatchAt (c :: rest) with
      | some (num, rest2) => num :: bareMatchesAux fuel rest2
      | none => bareMatchesAux fuel rest

def bareMatches (cs : List Char) : List (List Char) :=
  bareMatchesAux cs.length cs

/-- The `_parse_amount` (cbe_receipt.py lines 30–53): the preferred labeled
patterns first, then the *last* bare `<number> ETB` match.  `float()`
cannot fail on a matched token (see `ratOfNum`), so the source's
`try/except: pass` around it never falls through. -/
def cbe_parse_amount (text : String) : Option ℚ :=
  let cs := (pyLower text).toList
  match searchPreferred cs with
  | some num => ratOfNum num
  | none =>
    match (bareMatches cs).getLast? with
    | some num => ratOfNum num
    | none => none

/-! ## `cbe_receipt.py` / `telebirr_receipt.py`: the breaker-guarded,
retried fetch stage

The claims about the extractors concern the code from `before_call`
through the HTTP status / content-type classification
(cbe_receipt.py lines 144–176, telebirr_receipt.py lines 153–180); the
model covers exactly that stage.  `_fetch` either raises an `httpx`
exception or returns a response; it never raises `RuntimeError`, but the
retry predicate of the source classifies `RuntimeError` as retryable, so
the exception type below includes it. -/

/-- Exceptions an attempt of `_fetch` can raise, plus the source's two
extra retry-predicate cases. -/
inductive FetchExc where
  | timeout : FetchExc
  | requestError : FetchExc
  | runtimeError (msg : String) : FetchExc
  | otherExc : FetchExc
deriving DecidableEq

/-- The `_retry_if` (cbe_receipt.py lines 141–142, telebirr_receipt.py lines
150–151): `httpx.TimeoutException`, `httpx.RequestError` and
`RuntimeError` are retryable. -/
def local_retry_if : FetchExc → Bool
  | .timeout => true
  | .requestError => true
  | .runtimeError _ => true
  | .otherExc => false

/-- The part of an HTTP response the fetch stage inspects: the status code
and whether the content-type header matches the expected kind (`"pdf" in
ctype` for CBE; `json`/`html`/`text` handling for Telebirr is downstream
of the claims). -/
structure FetchResp where
  status_code : Nat
  content_type_pdf : Bool
deriving DecidableEq

/-- Equality of fetch-stage outcomes is decidable (needed to evaluate the
model at concrete inputs). -/
instance {ε α : Type} [DecidableEq ε] [DecidableEq α] : DecidableEq (Except ε α) := fun a b =>
  match a, b with
  | .ok x, .ok y => decidable_of_iff (x = y) (by simp)
  | .error x, .error y => decidable_of_iff (x = y) (by simp)
  | .ok _, .error _ => isFalse (by simp)
  | .error _, .ok _ => isFalse (by simp)

/-- How the CBE fetch stage terminates when it does not hand a response to
the parser. -/
inductive CbeStageErr where
  | circuitOpen : CbeStageErr
  | fetchExc (e : FetchExc) : CbeStageErr
  | notFound : CbeStageErr
  | transientStatus (code : Nat) : CbeStageErr
  | failedStatus (code : Nat) : CbeStageErr
deriving DecidableEq

/-- The fetch stage of `verify_cbe_receipt_pdf` (cbe_receipt.py lines
144–176): `before_call` (outside the `try`, so its `CircuitOpen`
propagates as-is), then the retried fetch, then breaker bookkeeping, then
the status-code and content-type classification.  Returns the outcome, the
breaker state afterwards, and the number of `_fetch` invocations. -/
def cbe_fetch_stage (br : CircuitBreaker) (now : ℚ) (config : RetryConfig)
    (outcome : Nat → Except FetchExc FetchResp) (jitter : Nat → ℚ) :
    Except CbeStageErr FetchResp × CircuitBreaker × Nat :=
  if before_call br now then (.error .circuitOpen, br, 0)
  else
    let r := retry_async config local_retry_if outcome jitter
    match r.result with
    | .error e => (.error (.fetchExc e), record_failure br now, r.calls)
    | .ok resp =>
      let br := record_success br
      if resp.status_code == 404 then (.error .notFound, br, r.calls)
      else if resp.status_code ∈ [429, 500, 502, 503, 504] then
        (.error (.transientStatus resp.status_code), br, r.calls)
      else if resp.status_code ≥ 400 then (.error (.failedStatus resp.status_code), br, r.calls)
      else if !resp.content_type_pdf then (.error .notFound, br, r.calls)
      else (.ok resp, br, r.calls)

/-- How the Telebirr fetch stage terminates before content parsing. -/
inductive TelebirrStageErr where
  | circuitOpen : TelebirrStageErr
  | fetchExc (e : FetchExc) : TelebirrStageErr
  | notFound : TelebirrStageErr
  | transientStatus (code : Nat) : TelebirrStageErr
  | failedStatus (code : Nat) : TelebirrStageErr
deriving DecidableEq

/-- The fetch stage of `verify_telebirr_receipt_html` (telebirr_receipt.py
lines 153–180): identical structure to the CBE stage up to the status
classification (content-type handling differs downstream and is outside
the claims). -/
def telebirr_fetch_stage (br : CircuitBreaker) (now : ℚ) (config : RetryConfig)
    (outcome : Nat → Except FetchExc FetchResp) (jitter : Nat → ℚ) :
    Except TelebirrStageErr FetchResp × CircuitBreaker × Nat :=
  if before_call br now then (.error .circuitOpen, br, 0)
  else
    let r := retry_async config local_retry_if outcome jitter
    match r.result with
    | .error e => (.error (.fetchExc e), record_failure br now, r.calls)
    | .ok resp =>
      let br := record_success br
      if resp.status_code == 404 then (.error .notFound, br, r.calls)
      else if resp.status_code ∈ [429, 500, 502, 503, 504] then
        (.error (.transientStatus resp.status_code), br, r.calls)
      else if resp.status_code ≥ 400 then (.error (.failedStatus resp.status_code), br, r.calls)
      else (.ok resp, br, r.calls)

/-! ## Theorems -/

/-- Stage (a) yields nothing when none of the three keys holds a string. -/
theorem statusStage_none (raw : RawMap) (ks : List String)
    (h : ∀ k s, k ∈ ks → rawGet raw k ≠ some (.str s)) :
    statusStage raw ks = none := by
  induction ks with
  | nil => rfl
  | cons k ks ih =>
    have ih' := ih (fun k' s hm => h k' s (List.mem_cons_of_mem _ hm))
    cases hv : rawGet raw k with
    | none => simpa [statusStage, hv] using ih'
    | some v =>
      cases v with
      | str s => exact absurd hv (h k s (List.mem_cons_self _ _))
      | null => simpa [statusStage, hv] using ih'
      | bool b => simpa [statusStage, hv] using ih'
      | num q => simpa [statusStage, hv] using ih'
      | obj l => simpa [statusStage, hv] using ih'
      | arr l => simpa [statusStage, hv] using ih'

/-- Stage (b) yields nothing when none of the keys holds a boolean. -/
theorem boolStage_none (raw : RawMap) (ks : List String)
    (h : ∀ k b, k ∈ ks → rawGet raw k ≠ some (.bool b)) :
    boolStage raw ks = none := by
  induction ks with
  | nil => rfl
  | cons k ks ih =>
    have ih' := ih (fun k' b hm => h k' b (List.mem_cons_of_mem _ hm))
    cases hv : rawGet raw k with
    | none => simpa [boolStage, hv] using ih'
    | some v =>
      cases v with
      | bool b => exact absurd hv (h k b (List.mem_cons_self _ _))
      | null => simpa [boolStage, hv] using ih'
      | str s => simpa [boolStage, hv] using ih'
      | num q => simpa [boolStage, hv] using ih'
      | obj l => simpa [boolStage, hv] using ih'
      | arr l => simpa [boolStage, hv] using ih'

/-- C5: `normalize_status` applies its rules in the claimed order —
string status fields, then boolean flags, then the message keyword scan,
then the PENDING default; consequently a map with boolean
`success = false` and no status string yields FAILED, and a map with none
of the recognized keys yields PENDING. -/
theorem C5_normalize_status_rule_order :
    (∀ raw : RawMap, normalize_status raw = normalize_status_spec raw) ∧
    (∀ raw : RawMap, rawGet raw "success" = some (.bool false) →
      (∀ k s, k ∈ (["status", "result", "state"] : List String) →
        rawGet raw k ≠ some (.str s)) →
      normalize_status raw = "FAILED") ∧
    (∀ raw : RawMap,
      (∀ k, k ∈ (["status", "result", "state", "success", "verified", "isVerified",
          "is_verified", "message", "detail"] : List String) → rawGet raw k = none) →
      normalize_status raw = "PENDING") := by
  refine ⟨?_, ?_, ?_⟩
  · intro raw
    simp only [normalize_status, normalize_status_spec]
    cases hs : statusStage raw ["status", "result", "state"] <;>
      cases hb : boolStage raw ["success", "verified", "isVerified", "is_verified"] <;>
        cases hm : messageStage raw <;>
          simp [hs, hb, hm, Option.orElse, Option.getD]
  · intro raw hsucc hnostr
    have h1 : statusStage raw ["status", "result", "state"] = none :=
      statusStage_none raw _ hnostr
    simp [normalize_status, h1, boolStage, hsucc]
  · intro raw hnone
    have q1 : rawGet raw "status" = none := hnone _ (by simp)
    have q2 : rawGet raw "result" = none := hnone _ (by simp)
    have q3 : rawGet raw "state" = none := hnone _ (by simp)
    have q4 : rawGet raw "success" = none := hnone _ (by simp)
    have q5 : rawGet raw "verified" = none := hnone _ (by simp)
    have q6 : rawGet raw "isVerified" = none := hnone _ (by simp)
    have q7 : rawGet raw "is_verified" = none := hnone _ (by simp)
    have q8 : rawGet raw "message" = none := hnone _ (by simp)
    have q9 : rawGet raw "detail" = none := hnone _ (by simp)
    simp [normalize_status, statusStage, boolStage, messageStage, msgValue, pyOr2,
      q1, q2, q3, q4, q5, q6, q7, q8, q9]

/-- Witness for C5 at concrete maps. -/
theorem C5_normalize_status_rule_order_witness :
    normalize_status [("success", Value.bool false)] = "FAILED" ∧
    normalize_status [("foo", Value.str "bar")] = "PENDING" :=
  ⟨C5_normalize_status_rule_order.2.1 [("success", Value.bool false)] rfl
      (by
        intro k s hk
        simp only [List.mem_cons, List.not_mem_nil, or_false] at hk
        rcases hk with rfl | rfl | rfl <;> simp [rawGet]),
    C5_normalize_status_rule_order.2.2 [("foo", Value.str "bar")]
      (by
        intro k hk
        simp only [List.mem_cons, List.not_mem_nil, or_false] at hk
        rcases hk with rfl | rfl | rfl | rfl | rfl | rfl | rfl | rfl | rfl <;> simp [rawGet])⟩

/-- C10: `normalize_status` inspects only top-level keys and never the
nested `data` object (any map whose only key is `data` normalizes to
PENDING — in particular one whose nested object says `status: success`),
while `normalize_fields` does read from `data` when present. -/
theorem C10_normalize_status_ignores_nested_data :
    (∀ v : Value, normalize_status [("data", v)] = "PENDING") ∧
    normalize_status [("data", Value.obj [("status", Value.str "success")])] = "PENDING" ∧
    normalize_fields [("data", Value.obj [("status", Value.str "success"),
        ("amount", Value.num 5)])] = (some 5, none, none, none) := by
  refine ⟨fun v => rfl, rfl, rfl⟩

/-- C3 counterexample: an upstream raw map whose message is
`"puppeteer says try again"` normalizes to PENDING, yet the orchestrator
does fall back to the local extractor (the automation-failure signature
fires), so a PENDING upstream result is not always returned as-is. -/
theorem C3_pending_can_trigger_fallback :
    normalize_status [("message", Value.str "puppeteer says try again")] = "PENDING" ∧
    should_fallback (some [("message", Value.str "puppeteer says try again")]) none = true :=
  ⟨by decide, by decide⟩

/-- C3 (amended): for well-formed orchestrator states (exactly one of
upstream result / upstream exception present), local fallback triggers
exactly when the upstream call raised, or the automation-failure signature
matches, or the normalized status is FAILED and the body looks like "not
found"; a PENDING upstream result that does not match the
automation-failure signature never triggers fallback. -/
theorem C3_fallback_condition :
    ∀ (u : Option RawMap) (e : Option UpstreamExc),
      (u = none ↔ e ≠ none) →
      ((should_fallback u e = true ↔
        (u = none ∨ ∃ raw, u = some raw ∧ (automationSig raw = true ∨
          (normalize_status raw = "FAILED" ∧ looksLikeNotFound (.obj raw) = true)))) ∧
       (∀ raw, u = some raw → normalize_status raw = "PENDING" →
         automationSig raw = false → should_fallback u e = false)) := by
  intro u e hwf
  cases u with
  | none =>
    constructor
    · simp [should_fallback]
    · intro raw h; exact absurd h (by simp)
  | some raw =>
    have he : e = none := by
      by_contra hne
      exact (by simpa using hwf.mpr hne : False)
    subst he
    constructor
    · cases ha : automationSig raw with
      | true => simp [should_fallback, ha]
      | false =>
        cases hn : normalize_status raw == "FAILED" with
        | true =>
          have hn' : normalize_status raw = "FAILED" := by simpa using hn
          cases hnf : looksLikeNotFound (.obj raw) <;>
            simp [should_fallback, ha, hn', hnf]
        | false =>
          have hn' : normalize_status raw ≠ "FAILED" := by simpa using hn
          simp [should_fallback, ha, hn']
    · intro raw' hraw hp hauto
      cases hraw
      have hn' : normalize_status raw ≠ "FAILED" := by simp [hp]
      simp [should_fallback, hauto, hn']

/-- Witness for C3 (amended): an upstream FAILED "not found" body triggers
fallback; a clean PENDING body does not. -/
theorem C3_fallback_condition_witness :
    should_fallback (some [("status", Value.str "failed"),
        ("message", Value.str "Receipt not found")]) none = true ∧
    should_fallback (some [("status", Value.str "pending")]) none = false :=
  ⟨(C3_fallback_condition (some [("status", Value.str "failed"),
        ("message", Value.str "Receipt not found")]) none (by simp)).1.mpr
      (Or.inr ⟨_, rfl, Or.inr ⟨by decide, by decide⟩⟩),
    (C3_fallback_condition (some [("status", Value.str "pending")]) none (by simp)).2
      _ rfl (by decide) (by decide)⟩

/-- C4: result selection — a local result normalizing to SUCCESS wins
with source `local`; otherwise an existing upstream result wins with
source `upstream`; otherwise a non-SUCCESS local result is still chosen
(source `local`); nothing is chosen (and the upstream exception is
surfaced) exactly when neither result exists. -/
theorem C4_result_selection :
    ∀ (u l : Option RawMap),
      (∀ lr, l = some lr → normalize_status lr = "SUCCESS" →
        choose_raw u l = some (.fromLocal lr) ∧
          source_of (choose_raw u l) = some "local") ∧
      (∀ lr ur, l = some lr → normalize_status lr ≠ "SUCCESS" → u = some ur →
        choose_raw u l = some (.fromUpstream ur) ∧
          source_of (choose_raw u l) = some "upstream") ∧
      (∀ ur, l = none → u = some ur →
        choose_raw u l = some (.fromUpstream ur) ∧
          source_of (choose_raw u l) = some "upstream") ∧
      (∀ lr, l = some lr → normalize_status lr ≠ "SUCCESS" → u = none →
        choose_raw u l = some (.fromLocal lr) ∧
          source_of (choose_raw u l) = some "local") ∧
      (choose_raw u l = none ↔ u = none ∧ l = none) := by
  intro u l
  refine ⟨?_, ?_, ?_, ?_, ?_⟩
  · intro lr hl hs; subst hl; simp [choose_raw, hs, source_of]
  · intro lr ur hl hs hu; subst hl; subst hu; simp [choose_raw, hs, source_of]
  · intro ur hl hu; subst hl; subst hu; simp [choose_raw, source_of]
  · intro lr hl hs hu; subst hl; subst hu; simp [choose_raw, hs, source_of]
  · cases u with
    | none =>
      cases l with
      | none => simp [choose_raw]
      | some lr =>
        by_cases hs : normalize_status lr = "SUCCESS" <;> simp [choose_raw, hs]
    | some ur =>
      cases l with
      | none => simp [choose_raw]
      | some lr =>
        by_cases hs : normalize_status lr = "SUCCESS" <;> simp [choose_raw, hs]

/-- Witness for C4 at concrete results. -/
theorem C4_result_selection_witness :
    choose_raw none (some [("success", Value.bool true)]) =
      some (.fromLocal [("success", Value.bool true)]) ∧
    source_of (choose_raw none (some [("success", Value.bool true)])) = some "local" :=
  (C4_result_selection none (some [("success", Value.bool true)])).1
    [("success", Value.bool true)] rfl rfl

/-- C1 counterexample: two requests that differ in reference (and in
suffix) share one cache key, because the reference may itself contain the
`:` separator — `("cbe", "abc:x", suffix "y")` and `("cbe", "abc",
suffix "x:y")` both map to `"ref:cbe:abc:x:y:"`. -/
theorem C1_cache_key_collision :
    cache_key ⟨.cbe, "abc:x", some "y", none⟩ = cache_key ⟨.cbe, "abc", some "x:y", none⟩ ∧
    ("abc:x" : String) ≠ "abc" ∧
    (some "y" : Option String) ≠ some "x:y" := by
  refine ⟨by decide, by decide, by simp⟩

/-- Splitting a separator-joined pair is unambiguous when the left parts
do not contain the separator. -/
theorem append_sep_inj {a c b d : List Char}
    (ha : ':' ∉ a) (hc : ':' ∉ c) (h : a ++ ':' :: b = c ++ ':' :: d) :
    a = c ∧ b = d := by
  induction a generalizing c with
  | nil =>
    cases c with
    | nil => simpa using h
    | cons y ys =>
      simp only [List.nil_append, List.cons_append, List.cons.injEq] at h
      exact absurd (h.1 ▸ List.mem_cons_self y ys) (h.1 ▸ hc)
  | cons x xs ih =>
    cases c with
    | nil =>
      simp only [List.cons_append, List.nil_append, List.cons.injEq] at h
      exact absurd (h.1 ▸ List.mem_cons_self x xs) (h.1 ▸ ha)
    | cons y ys =>
      simp only [List.cons_append, List.cons.injEq] at h
      obtain ⟨hxy, h2⟩ := h
      have hr := ih (fun hm => ha (List.mem_cons_of_mem _ hm))
        (fun hm => hc (List.mem_cons_of_mem _ hm)) h2
      exact ⟨by rw [hxy, hr.1], hr.2⟩

/-- No provider enum value contains the separator. -/
theorem provider_value_no_colon (p : Provider) : ':' ∉ p.value.data := by
  cases p <;> decide

/-- The `Provider.value` is injective on the five enum values. -/
theorem provider_value_data_inj {p q : Provider}
    (h : p.value.data = q.value.data) : p = q := by
  cases p <;> cases q <;> first | rfl | exact absurd h (by decide)

/-- The character-level decomposition of the cache key. -/
theorem cache_key_data (r : VerifyReferenceRequest) :
    (cache_key r).data =
      'r' :: 'e' :: 'f' :: ':' ::
        (r.provider.value.data ++ ':' ::
          (r.reference.data ++ ':' ::
            ((r.suffix.getD "").data ++ ':' :: (r.phone.getD "").data))) := by
  simp [cache_key, String.data_append, List.append_assoc]

/-- C1 (amended): on requests whose reference, suffix and phone contain no
`:` character (treating an absent optional field as the empty string, as
the key construction does), the cache key is injective in all four
request-distinguishing fields. -/
theorem C1_cache_key_injective_on_colon_free :
    ∀ r1 r2 : VerifyReferenceRequest,
      ':' ∉ r1.reference.data → ':' ∉ r2.reference.data →
      ':' ∉ (r1.suffix.getD "").data → ':' ∉ (r2.suffix.getD "").data →
      ':' ∉ (r1.phone.getD "").data → ':' ∉ (r2.phone.getD "").data →
      cache_key r1 = cache_key r2 →
      r1.provider = r2.provider ∧ r1.reference = r2.reference ∧
        r1.suffix.getD "" = r2.suffix.getD "" ∧ r1.phone.getD "" = r2.phone.getD "" := by
  intro r1 r2 h1 h2 h3 h4 h5 h6 hk
  have hd : (cache_key r1).data = (cache_key r2).data := by rw [hk]
  rw [cache_key_data, cache_key_data] at hd
  simp only [List.cons.injEq, true_and] at hd
  have s1 := append_sep_inj (provider_value_no_colon r1.provider)
    (provider_value_no_colon r2.provider) hd
  have s2 := append_sep_inj h1 h2 s1.2
  have s3 := append_sep_inj h3 h4 s2.2
  refine ⟨provider_value_data_inj s1.1, String.ext s2.1, String.ext s3.1, String.ext s3.2⟩

/-- Witness for C1 (amended) at colon-free concrete requests. -/
theorem C1_cache_key_injective_on_colon_free_witness :
    (⟨.cbe, "abc", some "123", none⟩ : VerifyReferenceRequest).provider =
        (⟨.cbe, "abc", some "123", none⟩ : VerifyReferenceRequest).provider ∧
      (⟨.cbe, "abc", some "123", none⟩ : VerifyReferenceRequest).reference =
        (⟨.cbe, "abc", some "123", none⟩ : VerifyReferenceRequest).reference ∧
      ((⟨.cbe, "abc", some "123", none⟩ : VerifyReferenceRequest).suffix.getD "") =
        ((⟨.cbe, "abc", some "123", none⟩ : VerifyReferenceRequest).suffix.getD "") ∧
      ((⟨.cbe, "abc", some "123", none⟩ : VerifyReferenceRequest).phone.getD "") =
        ((⟨.cbe, "abc", some "123", none⟩ : VerifyReferenceRequest).phone.getD "") :=
  C1_cache_key_injective_on_colon_free
    ⟨.cbe, "abc", some "123", none⟩ ⟨.cbe, "abc", some "123", none⟩
    (by decide) (by decide) (by decide) (by decide) (by decide) (by decide) rfl

/-- The `record_failure` preserves the breaker's configuration fields. -/
theorem record_failure_config (st : CircuitBreaker) (t : ℚ) :
    (record_failure st t).enabled = st.enabled ∧
    (record_failure st t).failure_threshold = st.failure_threshold ∧
    (record_failure st t).reset_seconds = st.reset_seconds := by
  unfold record_failure
  split <;> simp

/-- Exactly reaching the failure threshold from an enabled breaker opens
the circuit until `reset_seconds` past the last failure. -/
theorem applyFailures_opens :
    ∀ (ts0 : List ℚ) (st : CircuitBreaker) (tl : ℚ),
      st.enabled = true →
      st.consecutive_failures + ts0.length + 1 = st.failure_threshold →
      (applyFailures (ts0 ++ [tl]) st).consecutive_failures = st.failure_threshold ∧
      (applyFailures (ts0 ++ [tl]) st).open_until = tl + (st.reset_seconds : ℚ) ∧
      (applyFailures (ts0 ++ [tl]) st).enabled = st.enabled := by
  intro ts0
  induction ts0 with
  | nil =>
    intro st tl he hlen
    simp only [List.nil_append, applyFailures, List.foldl_cons, List.foldl_nil]
    simp only [List.length_nil, Nat.add_zero] at hlen
    unfold record_failure
    simp [he, ← hlen]
  | cons t ts0 ih =>
    intro st tl he hlen
    simp only [List.cons_append, applyFailures, List.foldl_cons] at *
    have hcfg := record_failure_config st t
    have hf : (record_failure st t).consecutive_failures = st.consecutive_failures + 1 := by
      unfold record_failure
      simp [he]
    have hlen' : (record_failure st t).consecutive_failures + ts0.length + 1 =
        (record_failure st t).failure_threshold := by
      rw [hf, hcfg.2.1]
      simp only [List.length_cons] at hlen
      omega
    have := ih (record_failure st t) tl (by rw [hcfg.1, he]) hlen'
    rw [hcfg.2.1, hcfg.2.2, hcfg.1] at this
    exact this

/-- C6: circuit-breaker lifecycle — after `failure_threshold` consecutive
`record_failure` calls (the last one at time `tl`), every `before_call`
strictly before `tl + reset_seconds` raises the circuit-open error (no
call is attempted), a `before_call` at or after `tl + reset_seconds` does
not raise, and `record_success` resets the consecutive-failure counter to
0 and closes the circuit (no later `before_call` raises). -/
theorem C6_circuit_breaker_lifecycle :
    ∀ (name : String) (ft rs : Int) (ts0 : List ℚ) (tl : ℚ),
      ts0.length + 1 = (mkCircuitBreaker name true ft rs).failure_threshold →
      ((∀ now : ℚ,
          now < tl + ((mkCircuitBreaker name true ft rs).reset_seconds : ℚ) →
          before_call (applyFailures (ts0 ++ [tl]) (mkCircuitBreaker name true ft rs)) now =
            true) ∧
       (∀ now : ℚ,
          tl + ((mkCircuitBreaker name true ft rs).reset_seconds : ℚ) ≤ now →
          before_call (applyFailures (ts0 ++ [tl]) (mkCircuitBreaker name true ft rs)) now =
            false) ∧
       (record_success
          (applyFailures (ts0 ++ [tl]) (mkCircuitBreaker name true ft rs))).consecutive_failures
          = 0 ∧
       (∀ now : ℚ, 0 ≤ now →
          before_call
            (record_success (applyFailures (ts0 ++ [tl]) (mkCircuitBreaker name true ft rs)))
            now = false)) := by
  intro name ft rs ts0 tl hlen
  have h := applyFailures_opens ts0 (mkCircuitBreaker name true ft rs) tl rfl
    (by simpa [mkCircuitBreaker] using hlen)
  have he : (applyFailures (ts0 ++ [tl]) (mkCircuitBreaker name true ft rs)).enabled = true :=
    h.2.2
  refine ⟨?_, ?_, ?_, ?_⟩
  · intro now hnow
    simp [before_call, he, h.2.1, hnow]
  · intro now hnow
    simp [before_call, he, h.2.1, not_lt.mpr hnow]
  · simp [record_success]
  · intro now hnow
    simp [before_call, record_success, not_lt.mpr hnow]

/-- Witness for C6 with the default configuration (threshold 5, reset
90 s): five failures ending at time 4 open the circuit for `now = 90`
and close it for `now = 94`. -/
theorem C6_circuit_breaker_lifecycle_witness :
    before_call (applyFailures ([0, 1, 2, 3] ++ [4]) (mkCircuitBreaker "cbe_receipt_pdf" true 5 90))
        90 = true ∧
    before_call (applyFailures ([0, 1, 2, 3] ++ [4]) (mkCircuitBreaker "cbe_receipt_pdf" true 5 90))
        94 = false ∧
    (record_success (applyFailures ([0, 1, 2, 3] ++ [4])
        (mkCircuitBreaker "cbe_receipt_pdf" true 5 90))).consecutive_failures = 0 :=
  have h := C6_circuit_breaker_lifecycle "cbe_receipt_pdf" 5 90 [0, 1, 2, 3] 4 (by decide)
  ⟨h.1 90 (by
      have hr : (mkCircuitBreaker "cbe_receipt_pdf" true 5 90).reset_seconds = 90 := rfl
      rw [hr]; norm_num),
    h.2.1 94 (by
      have hr : (mkCircuitBreaker "cbe_receipt_pdf" true 5 90).reset_seconds = 90 := rfl
      rw [hr]; norm_num), h.2.2.1⟩

/-- Unfolding of one loop iteration of `retryAux`. -/
theorem retryAux_succ {E A : Type} (attempts : Nat) (retryIf : E → Bool)
    (outcome : Nat → Except E A) (jitter : Nat → ℚ) (base maxDelay : ℚ)
    (attempt fuel : Nat) :
    retryAux attempts retryIf outcome jitter base maxDelay attempt (fuel + 1) =
      match outcome attempt with
      | .ok a => ⟨.ok a, [], 1⟩
      | .error e =>
        if attempts ≤ attempt || !retryIf e then ⟨.error e, [], 1⟩
        else
          let delay := min maxDelay (base * 2 ^ (attempt - 1)) * jitter attempt
          let rest := retryAux attempts retryIf outcome jitter base maxDelay (attempt + 1) fuel
          ⟨rest.result, (if 0 < delay then [(attempt, delay)] else []) ++ rest.sleeps,
            rest.calls + 1⟩ := rfl

/-- An error coming out of the retry loop is the unchanged exception of
the attempt at which the loop stopped: the final attempt, or the first
attempt whose exception the predicate rejects. -/
theorem retryAux_error_spec {E A : Type} (attempts : Nat) (retryIf : E → Bool)
    (outcome : Nat → Except E A) (jitter : Nat → ℚ) (base maxDelay : ℚ) :
    ∀ (fuel attempt : Nat), attempts ≤ attempt + fuel → attempt ≤ attempts →
      ∀ e, (retryAux attempts retryIf outcome jitter base maxDelay attempt fuel).result =
          .error e →
        ∃ k, attempt ≤ k ∧ k ≤ attempts ∧ outcome k = .error e ∧
          (attempts ≤ k ∨ retryIf e = false) := by
  intro fuel
  induction fuel with
  | zero =>
    intro attempt hinv hle e hres
    simp only [retryAux] at hres
    exact ⟨attempt, le_refl _, hle, hres, Or.inl (by omega)⟩
  | succ fuel ih =>
    intro attempt hinv hle e hres
    rw [retryAux_succ] at hres
    cases ho : outcome attempt with
    | ok a =>
      rw [ho] at hres
      simp at hres
    | error e0 =>
      rw [ho] at hres
      by_cases hg : attempts ≤ attempt
      · simp [hg] at hres
        subst hres
        exact ⟨attempt, le_refl _, hle, ho, Or.inl hg⟩
      · by_cases hr : retryIf e0 = true
        · simp [hg, hr] at hres
          obtain ⟨k, hk1, hk2, hk3, hk4⟩ := ih (attempt + 1) (by omega) (by omega) e hres
          exact ⟨k, by omega, hk2, hk3, hk4⟩
        · have hr' : retryIf e0 = false := by simpa using hr
          simp [hg, hr'] at hres
          subst hres
          exact ⟨attempt, le_refl _, hle, ho, Or.inr hr'⟩

/-- Every performed sleep belongs to a non-final attempt that failed
retryably, and its duration is exactly the full-jitter backoff formula. -/
theorem retryAux_sleeps_spec {E A : Type} (attempts : Nat) (retryIf : E → Bool)
    (outcome : Nat → Except E A) (jitter : Nat → ℚ) (base maxDelay : ℚ) :
    ∀ (fuel attempt : Nat),
      ∀ k d, (k, d) ∈ (retryAux attempts retryIf outcome jitter base maxDelay attempt fuel).sleeps →
        ∃ e, outcome k = .error e ∧ retryIf e = true ∧ ¬ attempts ≤ k ∧
          d = min maxDelay (base * 2 ^ (k - 1)) * jitter k ∧ 0 < d := by
  intro fuel
  induction fuel with
  | zero =>
    intro attempt k d hmem
    simp only [retryAux] at hmem
    simp at hmem
  | succ fuel ih =>
    intro attempt k d hmem
    rw [retryAux_succ] at hmem
    cases ho : outcome attempt with
    | ok a =>
      rw [ho] at hmem
      simp at hmem
    | error e0 =>
      rw [ho] at hmem
      by_cases hg : attempts ≤ attempt
      · simp [hg] at hmem
      · by_cases hr : retryIf e0 = true
        · by_cases hd : 0 < min maxDelay (base * 2 ^ (attempt - 1)) * jitter attempt
          · simp [hg, hr, hd] at hmem
            rcases hmem with ⟨rfl, rfl⟩ | hmem
            · exact ⟨e0, ho, hr, hg, rfl, hd⟩
            · exact ih (attempt + 1) k d hmem
          · simp [hg, hr, hd] at hmem
            exact ih (attempt + 1) k d hmem
        · have hr' : retryIf e0 = false := by simpa using hr
          simp [hg, hr'] at hmem

/-- C7: `retry_async` — a run whose first two attempts fail retryably and
whose third succeeds (with `attempts = 3`) returns the success value; an
error result is the unchanged exception of the final attempt or of a
non-retryable attempt; every sleep is `min(max_delay, base·2^(k−1))`
scaled by the jitter draw, hence non-negative and at most `max_delay`, and
sleeps happen only after retryable non-final attempts (never after the
terminal one). -/
theorem C7_retry_async_behavior :
    ∀ {E A : Type} (config : RetryConfig) (retryIf : E → Bool)
      (outcome : Nat → Except E A) (jitter : Nat → ℚ),
      (∀ n, 0 ≤ jitter n ∧ jitter n < 1) →
      ((∀ (e1 e2 : E) (v : A), config.attempts = 3 →
          outcome 1 = .error e1 → retryIf e1 = true →
          outcome 2 = .error e2 → retryIf e2 = true →
          outcome 3 = .ok v →
          (retry_async config retryIf outcome jitter).result = .ok v) ∧
       (∀ e, (retry_async config retryIf outcome jitter).result = .error e →
          ∃ k, 1 ≤ k ∧ k ≤ (max 1 config.attempts).toNat ∧ outcome k = .error e ∧
            (k = (max 1 config.attempts).toNat ∨ retryIf e = false)) ∧
       (∀ k d, (k, d) ∈ (retry_async config retryIf outcome jitter).sleeps →
          d = min (((max 0 config.max_delay_ms : Int) : ℚ) / 1000)
                ((((max 0 config.base_delay_ms : Int) : ℚ) / 1000) * 2 ^ (k - 1)) * jitter k ∧
            0 ≤ d ∧ d ≤ ((max 0 config.max_delay_ms : Int) : ℚ) / 1000 ∧
            k < (max 1 config.attempts).toNat ∧
            ∃ e, outcome k = .error e ∧ retryIf e = true)) := by
  intro E A config retryIf outcome jitter hj
  have hbase : (0 : ℚ) ≤ ((max 0 config.base_delay_ms : Int) : ℚ) / 1000 := by
    have : (0 : Int) ≤ max 0 config.base_delay_ms := le_max_left _ _
    positivity
  have hmaxd : (0 : ℚ) ≤ ((max 0 config.max_delay_ms : Int) : ℚ) / 1000 := by
    have : (0 : Int) ≤ max 0 config.max_delay_ms := le_max_left _ _
    positivity
  refine ⟨?_, ?_, ?_⟩
  · intro e1 e2 v hatt ho1 hr1 ho2 hr2 ho3
    unfold retry_async
    rw [hatt]
    have ha : (max 1 (3 : ℤ)).toNat = 3 := rfl
    rw [ha]
    rw [retryAux_succ, ho1]
    simp only [hr1]
    norm_num
    rw [retryAux_succ, ho2]
    simp only [hr2]
    norm_num
    rw [retryAux_succ, ho3]
  · intro e hres
    have hatt : 1 ≤ (max 1 config.attempts).toNat := by
      have : (1 : Int) ≤ max 1 config.attempts := le_max_left _ _
      omega
    obtain ⟨k, hk1, hk2, hk3, hk4⟩ :=
      retryAux_error_spec (max 1 config.attempts).toNat retryIf outcome jitter
        (((max 0 config.base_delay_ms : Int) : ℚ) / 1000)
        (((max 0 config.max_delay_ms : Int) : ℚ) / 1000)
        (max 1 config.attempts).toNat 1 (by omega) hatt e hres
    exact ⟨k, hk1, hk2, hk3, by
      rcases hk4 with h | h
      · exact Or.inl (le_antisymm hk2 h)
      · exact Or.inr h⟩
  · intro k d hmem
    obtain ⟨e, he, hr, hklt, hd, hdpos⟩ :=
      retryAux_sleeps_spec (max 1 config.attempts).toNat retryIf outcome jitter
        (((max 0 config.base_delay_ms : Int) : ℚ) / 1000)
        (((max 0 config.max_delay_ms : Int) : ℚ) / 1000)
        (max 1 config.attempts).toNat 1 k d hmem
    have hminnn : (0 : ℚ) ≤ min (((max 0 config.max_delay_ms : Int) : ℚ) / 1000)
        ((((max 0 config.base_delay_ms : Int) : ℚ) / 1000) * 2 ^ (k - 1)) :=
      le_min hmaxd (by positivity)
    refine ⟨hd, le_of_lt hdpos, ?_, by omega, e, he, hr⟩
    calc d = min (((max 0 config.max_delay_ms : Int) : ℚ) / 1000)
            ((((max 0 config.base_delay_ms : Int) : ℚ) / 1000) * 2 ^ (k - 1)) * jitter k := hd
      _ ≤ min (((max 0 config.max_delay_ms : Int) : ℚ) / 1000)
            ((((max 0 config.base_delay_ms : Int) : ℚ) / 1000) * 2 ^ (k - 1)) * 1 :=
          mul_le_mul_of_nonneg_left (le_of_lt (hj k).2) hminnn
      _ = min (((max 0 config.max_delay_ms : Int) : ℚ) / 1000)
            ((((max 0 config.base_delay_ms : Int) : ℚ) / 1000) * 2 ^ (k - 1)) := mul_one _
      _ ≤ ((max 0 config.max_delay_ms : Int) : ℚ) / 1000 := min_le_left _ _

/-- Witness for C7: with `attempts = 3`, two retryable failures then a
success return the success value. -/
theorem C7_retry_async_behavior_witness :
    (retry_async (E := Nat) (A := Nat) ⟨3, 200, 1500⟩ (fun _ => true)
        (fun n => if n < 3 then .error n else .ok 42) (fun _ => 1 / 2)).result = .ok 42 :=
  (C7_retry_async_behavior ⟨3, 200, 1500⟩ (fun _ => true)
      (fun n => if n < 3 then .error n else .ok 42) (fun _ => 1 / 2)
      (fun n => by norm_num)).1 1 2 42 rfl rfl rfl rfl rfl rfl

/-- Reading back a freshly written bucket. -/
theorem bucketGet_set (l : List (String × Nat)) (k : String) (v : Nat) :
    bucketGet (bucketSet l k v) k = v := by
  induction l with
  | nil => simp [bucketSet, bucketGet, List.find?]
  | cons p rest ih =>
    obtain ⟨k', v'⟩ := p
    by_cases hk : (k' == k) = true
    · simp [bucketSet, hk, bucketGet, List.find?]
    · have hk' : (k' == k) = false := by simpa using hk
      simp only [bucketSet, hk', Bool.false_eq_true, if_false]
      simpa [bucketGet, List.find?, hk'] using ih

/-- A filter whose predicate depends only on the key and keeps `k` does
not change the value read at `k`. -/
theorem bucketGet_filter (l : List (String × Nat)) (q : String → Bool) (k : String)
    (hq : q k = true) :
    bucketGet (l.filter (fun p => q p.1)) k = bucketGet l k := by
  induction l with
  | nil => rfl
  | cons p rest ih =>
    obtain ⟨k', v'⟩ := p
    by_cases hk : (k' == k) = true
    · have hkk : k' = k := by simpa using hk
      subst hkk
      simp [List.filter_cons, hq, bucketGet, List.find?]
    · have hk' : (k' == k) = false := by simpa using hk
      by_cases hqk : q k' = true
      · simpa [List.filter_cons, hqk, bucketGet, List.find?, hk'] using ih
      · have hqk' : q k' = false := by simpa using hqk
        simpa [List.filter_cons, hqk', bucketGet, List.find?, hk'] using ih

/-- A string always ends with the suffix it was built from. -/
theorem strEndsWith_append (a b : String) : strEndsWith (a ++ b) b = true := by
  simp only [strEndsWith, String.toList]
  rw [List.isSuffixOf_iff_suffix, String.data_append]
  exact List.suffix_append _ _

/-- Reading a one-entry bucket map at its key. -/
theorem bucketGet_singleton (k : String) (v : Nat) : bucketGet [(k, v)] k = v := by
  simp [bucketGet, List.find?]

/-- The bucket written by `hit` survives the size-triggered compaction
(its key ends in the current window's suffix) and reads back as the new
count. -/
theorem hit_bucket_updated (st : FixedWindowRateLimiter) (identity : String) (now : ℚ) :
    bucketGet (hit st identity now).2.buckets
        (identity ++ ":" ++ toString (⌊now / (st.window_seconds : ℚ)⌋ : Int)) =
      bucketGet st.buckets
        (identity ++ ":" ++ toString (⌊now / (st.window_seconds : ℚ)⌋ : Int)) + 1 := by
  have hkey : identity ++ ":" ++ toString (⌊now / (st.window_seconds : ℚ)⌋ : Int) =
      identity ++ (":" ++ toString (⌊now / (st.window_seconds : ℚ)⌋ : Int)) := by
    rw [String.append_assoc]
  simp only [hit]
  split
  · exact (bucketGet_filter
      (bucketSet st.buckets (identity ++ ":" ++ toString (⌊now / (st.window_seconds : ℚ)⌋ : Int))
        (bucketGet st.buckets
          (identity ++ ":" ++ toString (⌊now / (st.window_seconds : ℚ)⌋ : Int)) + 1))
      (fun s => strEndsWith s (":" ++ toString (⌊now / (st.window_seconds : ℚ)⌋ : Int)) ||
        strEndsWith s (":" ++ toString ((⌊now / (st.window_seconds : ℚ)⌋ : Int) - 1)))
      (identity ++ ":" ++ toString (⌊now / (st.window_seconds : ℚ)⌋ : Int))
      (by rw [hkey]; simp [strEndsWith_append])).trans (bucketGet_set _ _ _)
  · exact bucketGet_set _ _ _

set_option linter.unnecessarySeqFocus false in
/-- The per-window count sequence of repeated hits on a fresh limiter by
one identity inside a single window. -/
theorem iterHits_state (limit ws : Int) (identity : String) (tau : Nat → ℚ) (w : Int)
    (hw : ∀ i, (⌊tau i / (ws : ℚ)⌋ : Int) = w) :
    ∀ n, (iterHits (mkRateLimiter limit ws) identity tau n).buckets =
        (if n = 0 then [] else [(identity ++ ":" ++ toString w, n)]) ∧
      (iterHits (mkRateLimiter limit ws) identity tau n).limit = (max 1 limit).toNat ∧
      (iterHits (mkRateLimiter limit ws) identity tau n).window_seconds = ws := by
  intro n
  induction n with
  | zero => exact ⟨rfl, rfl, rfl⟩
  | succ n ih =>
    obtain ⟨hb, hl, hws⟩ := ih
    refine ⟨?_, ?_, ?_⟩ <;>
      simp only [iterHits, hit, hws, hl, hw (n + 1), hb] <;>
        (cases n <;> simp [bucketSet, bucketGet, List.find?])

/-- C8: each `hit` uses the window index `⌊now / window_seconds⌋`,
increments that identity's bucket for the window, and returns
`allowed = (count ≤ limit)`, the limit, `remaining = max(0, limit − count)`
(never negative) and the window's reset epoch second; on a fresh limiter,
the first `limit` hits of one identity inside one window are all allowed
and the `(limit+1)`-th is rejected with `remaining = 0`. -/
theorem C8_fixed_window_rate_limiter :
    (∀ (st : FixedWindowRateLimiter) (identity : String) (now : ℚ),
      (hit st identity now).1.allowed =
        decide (bucketGet st.buckets
            (identity ++ ":" ++ toString (⌊now / (st.window_seconds : ℚ)⌋ : Int)) + 1 ≤
          st.limit) ∧
      (hit st identity now).1.limit = st.limit ∧
      (hit st identity now).1.remaining =
        max 0 ((st.limit : Int) -
          (bucketGet st.buckets
              (identity ++ ":" ++ toString (⌊now / (st.window_seconds : ℚ)⌋ : Int)) + 1 : Nat)) ∧
      0 ≤ (hit st identity now).1.remaining ∧
      (hit st identity now).1.reset_epoch_seconds =
        ((⌊now / (st.window_seconds : ℚ)⌋ : Int) + 1) * st.window_seconds ∧
      bucketGet (hit st identity now).2.buckets
          (identity ++ ":" ++ toString (⌊now / (st.window_seconds : ℚ)⌋ : Int)) =
        bucketGet st.buckets
            (identity ++ ":" ++ toString (⌊now / (st.window_seconds : ℚ)⌋ : Int)) + 1) ∧
    (∀ (limit ws : Int) (identity : String) (tau : Nat → ℚ) (w : Int),
      (∀ i, (⌊tau i / (ws : ℚ)⌋ : Int) = w) →
      (∀ k, 1 ≤ k → k ≤ (max 1 limit).toNat →
        (hit (iterHits (mkRateLimiter limit ws) identity tau (k - 1)) identity
            (tau k)).1.allowed = true) ∧
      (hit (iterHits (mkRateLimiter limit ws) identity tau ((max 1 limit).toNat)) identity
          (tau ((max 1 limit).toNat + 1))).1.allowed = false ∧
      (hit (iterHits (mkRateLimiter limit ws) identity tau ((max 1 limit).toNat)) identity
          (tau ((max 1 limit).toNat + 1))).1.remaining = 0) := by
  constructor
  · intro st identity now
    refine ⟨rfl, rfl, rfl, ?_, rfl, hit_bucket_updated st identity now⟩
    simp [hit]
  · intro limit ws identity tau w hw
    have hL : 1 ≤ (max 1 limit).toNat := by
      have : (1 : Int) ≤ max 1 limit := le_max_left _ _
      omega
    have hcount : ∀ n, bucketGet (iterHits (mkRateLimiter limit ws) identity tau n).buckets
        (identity ++ ":" ++ toString w) = n := by
      intro n
      rw [(iterHits_state limit ws identity tau w hw n).1]
      by_cases h0 : n = 0
      · simp [h0, bucketGet, List.find?]
      · simp [h0, bucketGet_singleton]
    refine ⟨?_, ?_, ?_⟩
    · intro k hk1 hk2
      have hws := (iterHits_state limit ws identity tau w hw (k - 1)).2.2
      have hl := (iterHits_state limit ws identity tau w hw (k - 1)).2.1
      have hres : (hit (iterHits (mkRateLimiter limit ws) identity tau (k - 1)) identity
          (tau k)).1.allowed = decide (k - 1 + 1 ≤ (max 1 limit).toNat) := by
        simp [hit, hws, hl, hw, hcount (k - 1)]
      rw [hres]
      simp only [decide_eq_true_eq]
      omega
    · have hws := (iterHits_state limit ws identity tau w hw ((max 1 limit).toNat)).2.2
      have hl := (iterHits_state limit ws identity tau w hw ((max 1 limit).toNat)).2.1
      have hres : (hit (iterHits (mkRateLimiter limit ws) identity tau ((max 1 limit).toNat))
          identity (tau ((max 1 limit).toNat + 1))).1.allowed =
          decide ((max 1 limit).toNat + 1 ≤ (max 1 limit).toNat) := by
        simp [hit, hws, hl, hw, hcount ((max 1 limit).toNat)]
      rw [hres]
      simp only [decide_eq_false_iff_not]
      omega
    · have hws := (iterHits_state limit ws identity tau w hw ((max 1 limit).toNat)).2.2
      have hl := (iterHits_state limit ws identity tau w hw ((max 1 limit).toNat)).2.1
      have hres : (hit (iterHits (mkRateLimiter limit ws) identity tau ((max 1 limit).toNat))
          identity (tau ((max 1 limit).toNat + 1))).1.remaining =
          max 0 (((max 1 limit).toNat : Int) - (((max 1 limit).toNat + 1 : Nat) : Int)) := by
        simp [hit, hws, hl, hw, hcount ((max 1 limit).toNat)]
      rw [hres]
      omega

/-- Witness for C8: limit 2, window 60 s, hits at t = 5. -/
theorem C8_fixed_window_rate_limiter_witness :
    (hit (iterHits (mkRateLimiter 2 60) "X" (fun _ => 5) 1) "X" 5).1.allowed = true ∧
    (hit (iterHits (mkRateLimiter 2 60) "X" (fun _ => 5) 2) "X" 5).1.allowed = false ∧
    (hit (iterHits (mkRateLimiter 2 60) "X" (fun _ => 5) 2) "X" 5).1.remaining = 0 :=
  have h := C8_fixed_window_rate_limiter.2 2 60 "X" (fun _ => 5) 0 (fun _ => by norm_num)
  ⟨h.1 2 (by norm_num) (by norm_num), h.2.1, h.2.2⟩

/-- C9: CBE amount extraction tries the labeled patterns before any
fallback and, when none matches, takes the last bare `<number> ETB` match;
on a text containing `"Transferred Amount 1,250.00 ETB"` together with the
decoy `"VAT 15%"` it extracts `1250.00` and never the percentage figure
`15`. -/
theorem C9_cbe_amount_extraction :
    (∀ (text : String) (num : List Char),
      searchPreferred (pyLower text).toList = some num →
      cbe_parse_amount text = ratOfNum num) ∧
    (∀ text : String, searchPreferred (pyLower text).toList = none →
      cbe_parse_amount text =
        ((bareMatches (pyLower text).toList).getLast?.bind ratOfNum)) ∧
    cbe_parse_amount "Transferred Amount 1,250.00 ETB VAT 15%" = some 1250 ∧
    cbe_parse_amount "Transferred Amount 1,250.00 ETB VAT 15%" ≠ some 15 := by
  refine ⟨?_, ?_, ?_, ?_⟩
  · intro text num h
    simp only [cbe_parse_amount]
    rw [h]
  · intro text h
    simp only [cbe_parse_amount]
    rw [h]
    cases (bareMatches (pyLower text).toList).getLast? with
    | none => rfl
    | some num => rfl
  · decide
  · decide

/-- Witness for C9: a text with no labeled pattern falls back to the last
bare `<number> ETB` match. -/
theorem C9_cbe_amount_extraction_witness :
    cbe_parse_amount "Commission 3.00 ETB Total 99 ETB" =
      ((bareMatches (pyLower "Commission 3.00 ETB Total 99 ETB").toList).getLast?.bind
        ratOfNum) :=
  C9_cbe_amount_extraction.2.1 "Commission 3.00 ETB Total 99 ETB" (by decide)

/-- C2 evaluation: a fetched response with a transient HTTP status
(429/500/502/503/504) is *not* retried (`_fetch` returns the response, so
`retry_async` sees a success on the first attempt and makes exactly one
call) and the breaker records a *success* (the consecutive-failure counter
stays 0 and the circuit stays closed) before the transient-failure
`RuntimeError` is raised — for both the CBE and the Telebirr extractor. -/
theorem C2_transient_status_not_retried :
    (∀ code, code ∈ ([429, 500, 502, 503, 504] : List Nat) →
      (cbe_fetch_stage (mkCircuitBreaker "cbe_receipt_pdf" true 5 90) 0 ⟨3, 200, 1500⟩
          (fun _ => .ok ⟨code, true⟩) (fun _ => 1 / 2)).1 =
        .error (.transientStatus code) ∧
      (cbe_fetch_stage (mkCircuitBreaker "cbe_receipt_pdf" true 5 90) 0 ⟨3, 200, 1500⟩
          (fun _ => .ok ⟨code, true⟩) (fun _ => 1 / 2)).2.2 = 1 ∧
      (cbe_fetch_stage (mkCircuitBreaker "cbe_receipt_pdf" true 5 90) 0 ⟨3, 200, 1500⟩
          (fun _ => .ok ⟨code, true⟩) (fun _ => 1 / 2)).2.1.consecutive_failures = 0 ∧
      (cbe_fetch_stage (mkCircuitBreaker "cbe_receipt_pdf" true 5 90) 0 ⟨3, 200, 1500⟩
          (fun _ => .ok ⟨code, true⟩) (fun _ => 1 / 2)).2.1.open_until = 0 ∧
      (telebirr_fetch_stage (mkCircuitBreaker "telebirr_receipt" true 5 90) 0 ⟨3, 200, 1500⟩
          (fun _ => .ok ⟨code, true⟩) (fun _ => 1 / 2)).1 =
        .error (.transientStatus code) ∧
      (telebirr_fetch_stage (mkCircuitBreaker "telebirr_receipt" true 5 90) 0 ⟨3, 200, 1500⟩
          (fun _ => .ok ⟨code, true⟩) (fun _ => 1 / 2)).2.2 = 1 ∧
      (telebirr_fetch_stage (mkCircuitBreaker "telebirr_receipt" true 5 90) 0 ⟨3, 200, 1500⟩
          (fun _ => .ok ⟨code, true⟩) (fun _ => 1 / 2)).2.1.consecutive_failures = 0) := by
  intro code hcode
  fin_cases hcode <;>
    refine ⟨?_, ?_, ?_, ?_, ?_, ?_, ?_⟩ <;> decide

/-- Companion witness for C2 at the single status 500. -/
theorem C2_transient_status_not_retried_witness :
    (cbe_fetch_stage (mkCircuitBreaker "cbe_receipt_pdf" true 5 90) 0 ⟨3, 200, 1500⟩
        (fun _ => .ok ⟨500, true⟩) (fun _ => 1 / 2)).1 = .error (.transientStatus 500) ∧
    (cbe_fetch_stage (mkCircuitBreaker "cbe_receipt_pdf" true 5 90) 0 ⟨3, 200, 1500⟩
        (fun _ => .ok ⟨500, true⟩) (fun _ => 1 / 2)).2.2 = 1 :=
  have h := C2_transient_status_not_retried 500 (by simp)
  ⟨h.1, h.2.1⟩

end VerifyReceipt
